import Mathlib

/-!
Verification of the fastmlx request-orchestration layer against its source.

The development shallowly embeds `src/fastmlx/fastmlx.py` and
`src/fastmlx/types/chat/chat_completion.py`.  External collaborators that
live outside the embedded files (the mlx loaders, chat templating, the
generation engines, the tool-prompt synthesizer and the JSON parser) are
modelled as oracle parameters, so every theorem quantifies over their
behaviour.  Components of the repository whose source is not available
(`fastmlx/utils.py`: the stream generators and the tool-call extractor,
and `fastmlx/types/embeddings.py`: the embeddings envelopes) are modelled
from the specification and marked as such in their doc comments.
-/

/-- A model config mapping; the code only reads the `model_type` entry
(`config["model_type"]` in `load_model` and `chat_completion`). -/
structure Config where
  model_type : String
  deriving DecidableEq

/-- The runtime model object; `chat_completion` reads
`model.config.model_type` for the paligemma special case.  The handle
stands for the opaque mlx weights. -/
structure MlxModel (H : Type) where
  handle : H
  config : Config
  deriving DecidableEq

/-- A loaded model bundle, the dict produced by the `load_*_model`
helpers: `model_data["model"]`, `["config"]`, `["tokenizer"]`,
`["processor"]`, `["image_processor"]`. -/
structure Bundle (H : Type) where
  model : MlxModel H
  config : Config
  tokenizer : H
  processor : H
  image_processor : H
  deriving DecidableEq

/-- The `MODELS` kind table from `fastmlx.utils` (a parameter here: that
file is not part of the available source, so the lists are abstract). -/
structure Models where
  vlm : List String
  lm : List String
  embeddings : List String
  deriving DecidableEq

/-- Embedding of `MODEL_REMAPPING.get(t, t)`: remap a model-type string through the
alias table, defaulting to the input. -/
def remap (MODEL_REMAPPING : List (String × String)) (model_type : String) : String :=
  match MODEL_REMAPPING.lookup model_type with
  | some t => t
  | none => model_type

/-- The external loader collaborators used by `ModelProvider.load_model`:
`load_config`, `load_vlm_model`, `load_embeddings_model`, `load_lm_model`.
Fallibility (Python exceptions) is modelled with `Except`. -/
structure Loader (H ε : Type) where
  load_config : String → Except ε Config
  load_vlm_model : String → Config → Except ε (Bundle H)
  load_embeddings_model : String → Config → Except ε (Bundle H)
  load_lm_model : String → Config → Except ε (Bundle H)

/-- Embedding of `ModelProvider.models`: the registry's name-to-bundle dict, embedded
as an association list with unique keys (the dict invariant).  The
`asyncio.Lock` of the source gives each registry operation atomicity;
operations are therefore pure state transformers here. -/
structure ModelProvider (β : Type) where
  models : List (String × β)
  deriving DecidableEq

/-- Body of the cache-miss branch of `ModelProvider.load_model`
(lines 55-62): resolve the config, remap the model type and dispatch on
the kind lists.  Note the embeddings test appends `".py"` to the type. -/
def freshLoad (L : Loader H ε) (MODEL_REMAPPING : List (String × String))
    (MODELS : Models) (model_name : String) : Except ε (Bundle H) :=
  match L.load_config model_name with
  | .error e => .error e
  | .ok config =>
    let model_type := remap MODEL_REMAPPING config.model_type
    if model_type ∈ MODELS.vlm then
      L.load_vlm_model model_name config
    else if (model_type ++ ".py") ∈ MODELS.embeddings then
      L.load_embeddings_model model_name config
    else
      L.load_lm_model model_name config

/-- Embedding of `ModelProvider.load_model`: return the cached bundle if present,
otherwise load afresh and cache the result.  The returned provider is the
registry state after the call; a raised exception is an `.error` result
and leaves the state unchanged (the dict assignment never ran). -/
def load_model (L : Loader H ε) (MODEL_REMAPPING : List (String × String))
    (MODELS : Models) (p : ModelProvider (Bundle H)) (model_name : String) :
    ModelProvider (Bundle H) × Except ε (Bundle H) :=
  match p.models.lookup model_name with
  | some b => (p, .ok b)
  | none =>
    match freshLoad L MODEL_REMAPPING MODELS model_name with
    | .error e => (p, .error e)
    | .ok b => ({ models := p.models ++ [(model_name, b)] }, .ok b)

/-- Embedding of `ModelProvider.remove_model`: delete the entry if present and report
whether a removal happened. -/
def remove_model (p : ModelProvider β) (model_name : String) :
    ModelProvider β × Bool :=
  match p.models.lookup model_name with
  | some _ => ({ models := p.models.eraseP fun kv => kv.1 == model_name }, true)
  | none => (p, false)

/-- Embedding of `ModelProvider.get_available_models`: the list of cached names. -/
def get_available_models (p : ModelProvider β) : List String :=
  p.models.map Prod.fst

/-- One registry call: the two mutating operations of `ModelProvider`.
`load_model` contains no suspension point (it is a plain `def` on the
event loop) and `remove_model` holds the provider lock throughout, so
under the source's cooperative scheduling each call is one atomic step
and a concurrent execution is an arbitrary interleaving, i.e. a list of
operations. -/
inductive RegOp
  | acquire (model_name : String)
  | release (model_name : String)
  deriving DecidableEq

/-- Apply one atomic registry call to the state. -/
def applyOp (L : Loader H ε) (MODEL_REMAPPING : List (String × String))
    (MODELS : Models) (p : ModelProvider (Bundle H)) : RegOp → ModelProvider (Bundle H)
  | .acquire n => (load_model L MODEL_REMAPPING MODELS p n).1
  | .release n => (remove_model p n).1

/-- Run an interleaving of registry calls. -/
def runOps (L : Loader H ε) (MODEL_REMAPPING : List (String × String))
    (MODELS : Models) (p : ModelProvider (Bundle H)) : List RegOp → ModelProvider (Bundle H)
  | [] => p
  | op :: rest => runOps L MODEL_REMAPPING MODELS (applyOp L MODEL_REMAPPING MODELS p op) rest

/-- Content-part type tag, the `Literal["text", "image_url"]` of
`ChatCompletionContentPartParam` (validated by pydantic, so only these
two values occur). -/
inductive PartType
  | text
  | image_url
  deriving DecidableEq

/-- Embedding of `ChatCompletionContentPartParam`: `text` and `image_url` both default
to `None` in the source. -/
structure ContentPart where
  type : PartType
  text : Option String := none
  image_url : Option (List (String × String)) := none
  deriving DecidableEq

/-- Message content: `Union[str, List[ChatCompletionContentPartParam]]`. -/
inductive MsgContent
  | str (s : String)
  | parts (l : List ContentPart)
  deriving DecidableEq

/-- Embedding of `ChatMessage` from the request schema. -/
structure ChatMessage where
  role : String
  content : MsgContent
  deriving DecidableEq

/-- Embedding of `ChatCompletionRequest`.  `Tool` abstracts the `FunctionTool` payload
(only its presence matters to the orchestrator, which forwards the tool
dumps to the external synthesizer); `temperature` is an opaque
pass-through number, embedded as a rational. -/
structure ChatCompletionRequest (Tool : Type) where
  model : String
  messages : List ChatMessage
  image : Option String := none
  max_tokens : Option Nat := some 1024
  stream : Bool := false
  temperature : Option Rat := some (1/5)
  tools : Option (List Tool) := none
  tool_choice : Option String := none
  parallel_tool_calls : Option Bool := some false
  deriving DecidableEq

/-- Python truthiness of `request.tools` (`None` and `[]` are falsy). -/
def toolsTruthy : Option (List Tool) → Bool
  | none => false
  | some l => !l.isEmpty

/-- Whether the second character list is a prefix of the first. -/
def charsStartWith : List Char → List Char → Bool
  | _, [] => true
  | [], _ :: _ => false
  | c :: cs, d :: ds => c == d && charsStartWith cs ds

/-- Whether the second character list occurs inside the first. -/
def charsContain : List Char → List Char → Bool
  | [], needle => needle.isEmpty
  | c :: rest, needle => charsStartWith (c :: rest) needle || charsContain rest needle

/-- Python's substring test `needle in hay`. -/
def strContains (hay needle : String) : Bool :=
  charsContain hay.data needle.data

/-- Python truthiness of the scanned `image_url` variable: `None` and the
empty string are falsy (`if not image_url`). -/
def isFalsy : Option String → Bool
  | none => true
  | some u => u == ""

/-- Exceptions the VLM message scan can raise: `TypeError` from
concatenating/indexing `None`, `KeyError` from a missing `"url"` key. -/
inductive ScanErr
  | typeError
  | keyError
  deriving DecidableEq

/-- Inner loop of the VLM branch (lines 142-146): accumulate the text
parts (`text_content += content_part.text + " "`) and record the url of
each `image_url` part (later parts overwrite earlier ones). -/
def scanParts : List ContentPart → String → Option String →
    Except ScanErr (String × Option String)
  | [], text_content, image_url => .ok (text_content, image_url)
  | part :: rest, text_content, image_url =>
    match part.type with
    | PartType.text =>
      match part.text with
      | none => .error ScanErr.typeError
      | some t => scanParts rest (text_content ++ t ++ " ") image_url
    | PartType.image_url =>
      match part.image_url with
      | none => .error ScanErr.typeError
      | some d =>
        match d.lookup "url" with
        | none => .error ScanErr.keyError
        | some u => scanParts rest text_content (some u)

/-- Python's `str.strip()`: drop whitespace from both ends (embedded
over the character list so that it evaluates by kernel reduction). -/
def pyStrip (s : String) : String :=
  ⟨((s.data.dropWhile Char.isWhitespace).reverse.dropWhile Char.isWhitespace).reverse⟩

/-- One entry of the VLM branch's `chat_messages` list (role and flat
text content). -/
structure VlmMsg where
  role : String
  content : String
  deriving DecidableEq

/-- Outer loop of the VLM branch (lines 137-149): flatten each message to
a role/text pair, threading the `image_url` variable through. -/
def scanMessages : List ChatMessage → Option String →
    Except ScanErr (List VlmMsg × Option String)
  | [], image_url => .ok ([], image_url)
  | msg :: rest, image_url =>
    match msg.content with
    | MsgContent.str s =>
      match scanMessages rest image_url with
      | .error e => .error e
      | .ok (cms, u) => .ok (⟨msg.role, s⟩ :: cms, u)
    | MsgContent.parts l =>
      match scanParts l "" image_url with
      | .error e => .error e
      | .ok (text_content, u1) =>
        match scanMessages rest u1 with
        | .error e => .error e
        | .ok (cms, u2) => .ok (⟨msg.role, pyStrip text_content⟩ :: cms, u2)

/-- Whether a message carries at least one `image_url` content part. -/
def msgHasImagePart (m : ChatMessage) : Bool :=
  match m.content with
  | MsgContent.str _ => false
  | MsgContent.parts l => l.any fun p => p.type == PartType.image_url

/-- In-place update `request.messages[-1].content = prompt` (defined on
the empty list for totality; the caller only reaches it with a nonempty
list). -/
def replaceLastContent : List ChatMessage → MsgContent → List ChatMessage
  | [], _ => []
  | [m], c => [{ m with content := c }]
  | m :: m1 :: rest, c => m :: replaceLastContent (m1 :: rest) c

/-- Tool-prompt step of the LM branch (lines 211-227).  `get_tool_prompt`
is the external synthesizer; it returns the prompt text and the
`user_role` flag.  `none` models the `IndexError` raised by
`request.messages[-1]` on an empty message list. -/
def applyToolPrompt
    (get_tool_prompt : String → List Tool → MsgContent → Option String → Option Bool → String × Bool)
    (request : ChatCompletionRequest Tool) : Option (List ChatMessage) :=
  if toolsTruthy request.tools ∧ strContains request.model "firefunction-v2" = false then
    match request.messages with
    | m0 :: _ =>
      if m0.role = "system" then
        some request.messages
      else
        match request.messages.getLast? with
        | none => none
        | some last =>
          let pr := get_tool_prompt request.model (request.tools.getD [])
            last.content request.tool_choice request.parallel_tool_calls
          if pr.2 then
            some (replaceLastContent request.messages (MsgContent.str pr.1))
          else
            some (ChatMessage.mk "system" (MsgContent.str pr.1) :: request.messages)
    | [] => none
  else
    some request.messages

/-- One entry of the LM branch's `chat_messages` list; content may still
be a typed-part list (it is forwarded verbatim to the template). -/
structure LmMsg where
  role : String
  content : MsgContent
  deriving DecidableEq

/-- The external collaborators used by `chat_completion` outside the
loader: templating, generation engines, end-of-message tokens, the
tool-prompt synthesizer, and the tool-call extractor (`Resp` is its
response envelope type). -/
structure ChatOracles (H Tool Resp : Type) where
  get_eom_token : String → List String
  apply_vlm_chat_template : H → Config → List VlmMsg → String
  apply_lm_chat_template : H → List LmMsg → ChatCompletionRequest Tool → String
  get_tool_prompt : String → List Tool → MsgContent → Option String → Option Bool → String × Bool
  vlm_stream_generator : MlxModel H → String → H → Option String → String → H → Option Nat → Option Rat → List String
  vlm_generate : MlxModel H → H → Option String → String → H → Option Nat → Option Rat → String
  lm_stream_generator : MlxModel H → String → H → String → Option Nat → Option Rat → List String → List String
  lm_generate : MlxModel H → H → String → Option Nat → Option Rat → List String → String
  handle_function_calls : String → ChatCompletionRequest Tool → Resp

/-- Python exceptions that can escape `chat_completion` or
`create_embedding` besides `HTTPException`. -/
inductive PyExn (ε : Type)
  | loader (e : ε)
  | typeError
  | keyError
  | indexError
  deriving DecidableEq

/-- Lift a scan error to an escaping exception. -/
def ScanErr.toExn : ScanErr → PyExn ε
  | ScanErr.typeError => PyExn.typeError
  | ScanErr.keyError => PyExn.keyError

/-- Outcome of one `chat_completion` call: a streaming response, a
completed (extractor-produced) response, an `HTTPException`, or an
escaping Python exception. -/
inductive ChatResult (ε Resp : Type)
  | streamed (frames : List String)
  | completed (resp : Resp)
  | httpError (status : Nat) (detail : String)
  | raised (e : PyExn ε)
  deriving DecidableEq

/-- Whether a result proceeded to generation (either stream flavour). -/
def isProceed : ChatResult ε Resp → Bool
  | ChatResult.streamed _ => true
  | ChatResult.completed _ => true
  | _ => false

/-- Prompt construction of the VLM branch (lines 156-160): templating
unless the runtime model is paligemma, in which case the last chat
message's content; `none` models the `IndexError` of `chat_messages[-1]`
on an empty list. -/
def vlmPrompt (O : ChatOracles H Tool Resp) (model_data : Bundle H)
    (chat_messages : List VlmMsg) : Option String :=
  if model_data.model.config.model_type ≠ "paligemma" then
    some (O.apply_vlm_chat_template model_data.processor model_data.config chat_messages)
  else
    match chat_messages.getLast? with
    | some m => some m.content
    | none => none

/-- The `POST /v1/chat/completions` handler `chat_completion`
(lines 119-260), as a pure state transformer over the registry with all
external collaborators as oracles. -/
def chat_completion (L : Loader H ε) (O : ChatOracles H Tool Resp)
    (MODEL_REMAPPING : List (String × String)) (MODELS : Models)
    (p : ModelProvider (Bundle H)) (request : ChatCompletionRequest Tool) :
    ModelProvider (Bundle H) × ChatResult ε Resp :=
  let stream := request.stream
  match load_model L MODEL_REMAPPING MODELS p request.model with
  | (p1, .error e) => (p1, ChatResult.raised (PyExn.loader e))
  | (p1, .ok model_data) =>
    let model := model_data.model
    let config := model_data.config
    let model_type := remap MODEL_REMAPPING config.model_type
    let stop_words := O.get_eom_token request.model
    if model_type ∈ MODELS.vlm then
      match scanMessages request.messages none with
      | .error e => (p1, ChatResult.raised e.toExn)
      | .ok (chat_messages, image_url) =>
        if isFalsy image_url ∧ model_type ∈ MODELS.vlm then
          (p1, ChatResult.httpError 400 "Image URL not provided for VLM model")
        else
          match vlmPrompt O model_data chat_messages with
          | none => (p1, ChatResult.raised PyExn.indexError)
          | some prompt =>
            if stream then
              (p1, ChatResult.streamed (O.vlm_stream_generator model request.model
                model_data.processor image_url prompt model_data.image_processor
                request.max_tokens request.temperature))
            else
              let output := O.vlm_generate model model_data.processor image_url prompt
                model_data.image_processor request.max_tokens request.temperature
              (p1, ChatResult.completed (O.handle_function_calls output request))
    else
      match applyToolPrompt O.get_tool_prompt request with
      | none => (p1, ChatResult.raised PyExn.indexError)
      | some msgs =>
        let request1 : ChatCompletionRequest Tool := { request with messages := msgs }
        let tokenizer := model_data.tokenizer
        let chat_messages := msgs.map fun m => LmMsg.mk m.role m.content
        let prompt := O.apply_lm_chat_template tokenizer chat_messages request1
        if stream then
          (p1, ChatResult.streamed (O.lm_stream_generator model request.model tokenizer
            prompt request.max_tokens request.temperature stop_words))
        else
          let output := O.lm_generate model tokenizer prompt request.max_tokens
            request.temperature stop_words
          (p1, ChatResult.completed (O.handle_function_calls output request1))

/-- Modelled from the spec: the request envelope of `POST /v1/embeddings`
(`fastmlx/types/embeddings.py` is not part of the available source); the
handler reads `request.model` and `request.input`. -/
structure EmbeddingsRequest where
  model : String
  input : String
  encoding_formats : Option String := none
  deriving DecidableEq

/-- Modelled from the spec: one entry of the embeddings response `data`
list, as constructed at lines 279-283 of the handler. -/
structure EmbeddingItem (α : Type) where
  object : String
  embedding : List α
  index : Nat
  deriving DecidableEq

/-- Modelled from the spec: the usage block of the embeddings response. -/
structure EmbedUsage where
  prompt_tokens : Nat
  total_tokens : Nat
  deriving DecidableEq

/-- Modelled from the spec: the `EmbeddingsResponse` envelope as filled
in by `create_embedding`. -/
structure EmbeddingsResponse (α : Type) where
  model : String
  data : List (EmbeddingItem α)
  usage : EmbedUsage
  deriving DecidableEq

/-- The external tokenizer/model collaborators of `create_embedding`:
`tokenizer.encode(input, return_tensors="mlx")` produces a batched id
matrix, and `model(input_ids)` produces a tuple of arrays whose first
element has shape batch-by-sequence-by-hidden (element type `α`). -/
structure EmbedOracles (H α : Type) where
  encode : H → String → List (List Nat)
  forward : H → List (List Nat) → List (List (List (List α)))

/-- The `POST /v1/embeddings` handler `create_embedding` (lines 263-290):
`embeddings = outputs[0][:, 0, :].tolist()` takes the first token
position of each batch row, and `input_tokens = len(input_ids[0])`.
`IndexError` models out-of-range indexing on the array shapes. -/
def create_embedding (L : Loader H ε) (E : EmbedOracles H α)
    (MODEL_REMAPPING : List (String × String)) (MODELS : Models)
    (p : ModelProvider (Bundle H)) (request : EmbeddingsRequest) :
    ModelProvider (Bundle H) × Except (PyExn ε) (EmbeddingsResponse α) :=
  match load_model L MODEL_REMAPPING MODELS p request.model with
  | (p1, .error e) => (p1, .error (PyExn.loader e))
  | (p1, .ok model_data) =>
    let input_ids := E.encode model_data.tokenizer request.input
    let outputs := E.forward model_data.model.handle input_ids
    match outputs.head? with
    | none => (p1, .error PyExn.indexError)
    | some t0 =>
      match t0.mapM List.head? with
      | none => (p1, .error PyExn.indexError)
      | some embeddings =>
        match input_ids.head? with
        | none => (p1, .error PyExn.indexError)
        | some row0 =>
          (p1, .ok { model := request.model
                   , data := embeddings.map fun e => ⟨"embedding", e, 0⟩
                   , usage := ⟨row0.length, row0.length⟩ })

/-- Delta of one streamed chunk choice (partial role/content). -/
structure Delta where
  role : Option String := none
  content : Option String := none
  deriving DecidableEq

/-- One choice entry of a streamed chunk (the source declares `choices`
as a list of dicts; the generators fill index, delta and finish_reason). -/
structure ChunkChoice where
  index : Nat
  delta : Delta
  finish_reason : Option String
  deriving DecidableEq

/-- Embedding of `ChatCompletionChunk` from `types/chat/chat_completion.py`. -/
structure ChatCompletionChunk where
  id : String
  object : String := "chat.completion.chunk"
  created : Nat
  model : String
  choices : List ChunkChoice
  deriving DecidableEq

/-- Modelled from the spec: the initial role-announcing chunk of a
stream (`lm_stream_generator`/`vlm_stream_generator` live in
`fastmlx/utils.py`, which is not part of the available source). -/
def roleChunk (id : String) (created : Nat) (model : String) : ChatCompletionChunk :=
  { id := id, created := created, model := model
  , choices := [⟨0, ⟨some "assistant", some ""⟩, none⟩] }

/-- Modelled from the spec: one content chunk per generated fragment. -/
def contentChunk (id : String) (created : Nat) (model frag : String) : ChatCompletionChunk :=
  { id := id, created := created, model := model
  , choices := [⟨0, ⟨none, some frag⟩, none⟩] }

/-- Modelled from the spec: the terminal chunk carrying the finish
reason. -/
def terminalChunk (id : String) (created : Nat) (model finish : String) : ChatCompletionChunk :=
  { id := id, created := created, model := model
  , choices := [⟨0, ⟨none, none⟩, some finish⟩] }

/-- Modelled from the spec: the chunk sequence rendered for a finite
fragment sequence — role announcement, one content chunk per fragment,
then the terminal chunk; `id` and `created` are fixed at stream start. -/
def streamChunks (id : String) (created : Nat) (model : String)
    (frags : List String) (finish : String) : List ChatCompletionChunk :=
  roleChunk id created model
    :: (frags.map (contentChunk id created model) ++ [terminalChunk id created model finish])

/-- One line of the rendered SSE body: a `data:` chunk line or the
literal `data: [DONE]` sentinel. -/
inductive SSEFrame
  | data (c : ChatCompletionChunk)
  | done
  deriving DecidableEq

/-- Modelled from the spec: the full rendered SSE stream — every chunk as
a `data:` line followed by the `[DONE]` sentinel. -/
def renderStream (id : String) (created : Nat) (model : String)
    (frags : List String) (finish : String) : List SSEFrame :=
  (streamChunks id created model frags finish).map SSEFrame.data ++ [SSEFrame.done]

/-- The four tool-call conventions recognised by the extractor, in
detection priority order. -/
inductive Convention
  | inlineJson
  | legacyTag
  | structuredTag
  | bracketedList
  deriving DecidableEq

/-- A normalized tool call: function name plus the JSON-encoded argument
string. -/
structure ToolCallJson where
  name : String
  arguments : String
  deriving DecidableEq

/-- Modelled from the spec: the text-analysis primitives of the
extractor.  `trigger` is the convention's trigger-pattern match and
`parsePayload` its payload parse, returning the cleaned prose and the
extracted calls, or `none` when the JSON/structure inside the matched
block is malformed. -/
structure ExtractorOracle where
  trigger : Convention → String → Bool
  parsePayload : Convention → String → Option (String × List ToolCallJson)

/-- Modelled from the spec: the fixed priority order in which the
conventions are attempted. -/
def conventionOrder : List Convention :=
  [Convention.inlineJson, Convention.legacyTag, Convention.structuredTag,
   Convention.bracketedList]

/-- Modelled from the spec: attempt one convention — if its trigger
matches, the convention wins; a malformed payload then degrades to the
raw text with no calls instead of raising. -/
def tryConvention (O : ExtractorOracle) (text : String) (c : Convention) :
    Option (String × List ToolCallJson) :=
  if O.trigger c text then
    match O.parsePayload c text with
    | some r => some r
    | none => some (text, [])
  else
    none

/-- Modelled from the spec: `handle_function_calls` (the ToolCallExtractor
of `fastmlx/utils.py`, not part of the available source) — try the
conventions in priority order; the first whose trigger matches wins, and
unmatched text is returned unchanged with no calls.  Totality of this
function is the exception-freedom of the extractor. -/
def handle_function_calls (O : ExtractorOracle) (text : String) :
    String × List ToolCallJson :=
  match conventionOrder.findSome? (tryConvention O text) with
  | some r => r
  | none => (text, [])

theorem lookup_eq_none_iff {β : Type} (l : List (String × β)) (a : String) :
    l.lookup a = none ↔ a ∉ l.map Prod.fst := by
  induction l with
  | nil => simp [List.lookup]
  | cons kv rest ih =>
    obtain ⟨k, v⟩ := kv
    by_cases h : a = k
    · subst h; simp [List.lookup]
    · have hb : (a == k) = false := beq_eq_false_iff_ne.mpr h
      simp [List.lookup, hb, ih, h]

theorem lookup_append_single_self {β : Type} (l : List (String × β)) (a : String) (b : β)
    (h : l.lookup a = none) : (l ++ [(a, b)]).lookup a = some b := by
  induction l with
  | nil => simp [List.lookup]
  | cons kv rest ih =>
    obtain ⟨k, v⟩ := kv
    by_cases hk : a = k
    · subst hk; simp [List.lookup] at h
    · have hb : (a == k) = false := beq_eq_false_iff_ne.mpr hk
      rw [List.cons_append]
      simp only [List.lookup, hb] at h ⊢
      exact ih h

theorem lookup_eraseP_self {β : Type} (l : List (String × β)) (a : String)
    (hnd : (l.map Prod.fst).Nodup) :
    (l.eraseP fun kv => kv.1 == a).lookup a = none := by
  induction l with
  | nil => simp [List.lookup]
  | cons kv rest ih =>
    obtain ⟨k, v⟩ := kv
    simp only [List.map_cons, List.nodup_cons] at hnd
    by_cases h : k = a
    · subst h
      rw [show List.eraseP (fun kv => kv.1 == k) ((k, v) :: rest) = rest by
        simp [List.eraseP_cons]]
      exact (lookup_eq_none_iff rest k).mpr hnd.1
    · have hb : (k == a) = false := beq_eq_false_iff_ne.mpr h
      rw [show List.eraseP (fun kv => kv.1 == a) ((k, v) :: rest)
            = (k, v) :: List.eraseP (fun kv => kv.1 == a) rest by
        simp [List.eraseP_cons, hb]]
      have hb2 : (a == k) = false := beq_eq_false_iff_ne.mpr fun he => h he.symm
      simp [List.lookup, hb2, ih hnd.2]

theorem lookup_eraseP_ne {β : Type} (l : List (String × β)) (a k : String) (hk : k ≠ a) :
    (l.eraseP fun kv => kv.1 == a).lookup k = l.lookup k := by
  induction l with
  | nil => simp
  | cons kv rest ih =>
    obtain ⟨k1, v⟩ := kv
    by_cases h : k1 = a
    · subst h
      rw [show List.eraseP (fun kv => kv.1 == k1) ((k1, v) :: rest) = rest by
        simp [List.eraseP_cons]]
      have hb : (k == k1) = false := beq_eq_false_iff_ne.mpr hk
      simp [List.lookup, hb]
    · have hb : (k1 == a) = false := beq_eq_false_iff_ne.mpr h
      rw [show List.eraseP (fun kv => kv.1 == a) ((k1, v) :: rest)
            = (k1, v) :: List.eraseP (fun kv => kv.1 == a) rest by
        simp [List.eraseP_cons, hb]]
      by_cases h2 : k = k1
      · subst h2; simp [List.lookup]
      · have hb2 : (k == k1) = false := beq_eq_false_iff_ne.mpr h2
        simp [List.lookup, hb2, ih]

theorem keys_eraseP_nodup {β : Type} (l : List (String × β)) (p : String × β → Bool)
    (hnd : (l.map Prod.fst).Nodup) : ((l.eraseP p).map Prod.fst).Nodup :=
  hnd.sublist ((List.eraseP_sublist l).map Prod.fst)

theorem keys_append_single_nodup {β : Type} (l : List (String × β)) (a : String) (b : β)
    (hnd : (l.map Prod.fst).Nodup) (h : l.lookup a = none) :
    ((l ++ [(a, b)]).map Prod.fst).Nodup := by
  rw [List.map_append]
  rw [List.nodup_append]
  refine ⟨hnd, by simp, ?_⟩
  intro x hx hx2
  simp at hx2
  subst hx2
  exact (lookup_eq_none_iff l x).mp h hx

theorem load_model_cached (L : Loader H ε) (rm : List (String × String)) (M : Models)
    (p : ModelProvider (Bundle H)) (n : String) (b : Bundle H)
    (h : p.models.lookup n = some b) :
    load_model L rm M p n = (p, .ok b) := by
  simp [load_model, h]

theorem load_model_keys_nodup (L : Loader H ε) (rm : List (String × String)) (M : Models)
    (p : ModelProvider (Bundle H)) (n : String)
    (hnd : (p.models.map Prod.fst).Nodup) :
    (((load_model L rm M p n).1).models.map Prod.fst).Nodup := by
  unfold load_model
  cases hl : p.models.lookup n with
  | some b => simpa using hnd
  | none =>
    cases hf : freshLoad L rm M n with
    | error e => simpa using hnd
    | ok b => simpa using keys_append_single_nodup p.models n b hnd hl

theorem remove_model_keys_nodup (p : ModelProvider β) (n : String)
    (hnd : (p.models.map Prod.fst).Nodup) :
    (((remove_model p n).1).models.map Prod.fst).Nodup := by
  unfold remove_model
  cases hl : p.models.lookup n with
  | some b => simpa using keys_eraseP_nodup p.models _ hnd
  | none => simpa using hnd

theorem runOps_keys_nodup (L : Loader H ε) (rm : List (String × String)) (M : Models)
    (p : ModelProvider (Bundle H)) (ops : List RegOp)
    (hnd : (p.models.map Prod.fst).Nodup) :
    (((runOps L rm M p ops).models.map Prod.fst)).Nodup := by
  induction ops generalizing p with
  | nil => simpa [runOps] using hnd
  | cons op rest ih =>
    rw [runOps]
    apply ih
    cases op with
    | acquire n => exact load_model_keys_nodup L rm M p n hnd
    | release n => exact remove_model_keys_nodup p n hnd

theorem runOps_acquire_cached (L : Loader H ε) (rm : List (String × String)) (M : Models)
    (p : ModelProvider (Bundle H)) (x : String) (b : Bundle H) (m : Nat)
    (h : p.models.lookup x = some b) :
    runOps L rm M p (List.replicate m (RegOp.acquire x)) = p := by
  induction m with
  | zero => rfl
  | succ k ih =>
    rw [List.replicate_succ, runOps]
    have : applyOp L rm M p (RegOp.acquire x) = p := by
      simp [applyOp, load_model_cached L rm M p x b h]
    rw [this]
    exact ih

theorem runOps_acquire_replicate (L : Loader H ε) (rm : List (String × String)) (M : Models)
    (x : String) (b : Bundle H) (n : Nat) (hn : 1 ≤ n)
    (hb : freshLoad L rm M x = .ok b) :
    runOps L rm M ⟨[]⟩ (List.replicate n (RegOp.acquire x)) = ⟨[(x, b)]⟩ := by
  obtain ⟨m, rfl⟩ : ∃ m, n = m + 1 := ⟨n - 1, by omega⟩
  rw [show m + 1 = 1 + m by omega, List.replicate_add, List.replicate_one]
  have h1 : runOps L rm M ⟨[]⟩ [RegOp.acquire x] = ⟨[(x, b)]⟩ := by
    simp [runOps, applyOp, load_model, List.lookup, hb]
  rw [show ([RegOp.acquire x] ++ List.replicate m (RegOp.acquire x) : List RegOp)
        = RegOp.acquire x :: List.replicate m (RegOp.acquire x) by simp]
  rw [runOps]
  have h2 : applyOp L rm M ⟨[]⟩ (RegOp.acquire x) = ⟨[(x, b)]⟩ := by
    simp [applyOp, load_model, List.lookup, hb]
  rw [h2]
  exact runOps_acquire_cached L rm M ⟨[(x, b)]⟩ x b m (by simp [List.lookup])

theorem scanParts_no_image (parts : List ContentPart) (tc : String) (u : Option String)
    (h : parts.all (fun p => !(p.type == PartType.image_url)) = true) :
    ∀ tc1 u1, scanParts parts tc u = .ok (tc1, u1) → u1 = u := by
  induction parts generalizing tc with
  | nil => intro tc1 u1 hs; simp [scanParts] at hs; exact hs.2.symm
  | cons part rest ih =>
    intro tc1 u1 hs
    simp only [List.all_cons, Bool.and_eq_true] at h
    cases hpt : part.type with
    | text =>
      rw [scanParts, hpt] at hs
      cases hx : part.text with
      | none => rw [hx] at hs; exact absurd hs (by simp)
      | some t => rw [hx] at hs; exact ih _ h.2 tc1 u1 hs
    | image_url => rw [hpt] at h; simp at h

theorem scanMessages_no_image (msgs : List ChatMessage) (u : Option String)
    (h : msgs.any msgHasImagePart = false) :
    ∀ cm u1, scanMessages msgs u = .ok (cm, u1) → u1 = u := by
  induction msgs generalizing u with
  | nil => intro cm u1 hs; simp [scanMessages] at hs; exact hs.2.symm
  | cons msg rest ih =>
    intro cm u1 hs
    simp only [List.any_cons, Bool.or_eq_false_iff] at h
    cases hc : msg.content with
    | str s =>
      cases hrec : scanMessages rest u with
      | error e => simp [scanMessages, hc, hrec] at hs
      | ok r =>
        obtain ⟨cms, u2⟩ := r
        simp only [scanMessages, hc, hrec] at hs
        simp at hs
        rw [← hs.2]
        exact ih u h.2 cms u2 hrec
    | parts l =>
      have hl : l.all (fun p => !(p.type == PartType.image_url)) = true := by
        have hm := h.1
        rw [msgHasImagePart, hc] at hm
        rw [List.all_eq_true]
        intro p hp
        have := List.any_eq_false.mp hm p hp
        simpa using this
      cases hsp : scanParts l "" u with
      | error e => simp [scanMessages, hc, hsp] at hs
      | ok r =>
        obtain ⟨tcx, ux⟩ := r
        have hux : ux = u := scanParts_no_image l "" u hl tcx ux hsp
        cases hrec : scanMessages rest ux with
        | error e => simp [scanMessages, hc, hsp, hrec] at hs
        | ok r2 =>
          obtain ⟨cms, u2⟩ := r2
          simp only [scanMessages, hc, hsp, hrec] at hs
          simp at hs
          rw [← hs.2, ← hux]
          exact ih ux h.2 cms u2 hrec

theorem scanMessages_some_ne_nil (msgs : List ChatMessage) (cm : List VlmMsg) (u : String)
    (hs : scanMessages msgs none = .ok (cm, some u)) : cm ≠ [] := by
  cases msgs with
  | nil => simp [scanMessages] at hs
  | cons msg rest =>
    cases hc : msg.content with
    | str s =>
      cases hrec : scanMessages rest none with
      | error e => simp [scanMessages, hc, hrec] at hs
      | ok r =>
        obtain ⟨cms, u2⟩ := r
        simp only [scanMessages, hc, hrec] at hs
        simp at hs
        rw [← hs.1]
        simp
    | parts l =>
      cases hsp : scanParts l "" none with
      | error e => simp [scanMessages, hc, hsp] at hs
      | ok r =>
        obtain ⟨tcx, ux⟩ := r
        cases hrec : scanMessages rest ux with
        | error e => simp [scanMessages, hc, hsp, hrec] at hs
        | ok r2 =>
          obtain ⟨cms, u2⟩ := r2
          simp only [scanMessages, hc, hsp, hrec] at hs
          simp at hs
          rw [← hs.1]
          simp

theorem vlmPrompt_isSome (O : ChatOracles H Tool Resp) (model_data : Bundle H)
    (cm : List VlmMsg) (hne : cm ≠ []) : ∃ pr, vlmPrompt O model_data cm = some pr := by
  rw [vlmPrompt]
  by_cases hp : model_data.model.config.model_type ≠ "paligemma"
  · rw [if_pos hp]; exact ⟨_, rfl⟩
  · rw [if_neg hp]
    have hsom : cm.getLast?.isSome := by simp [List.getLast?_isSome, hne]
    obtain ⟨m, hm⟩ := Option.isSome_iff_exists.mp hsom
    rw [hm]
    exact ⟨m.content, rfl⟩

/-- A concrete bundle over the unit handle type, for concrete
instantiations; the marker string fills both config slots. -/
def unitBundle (t : String) : Bundle Unit :=
  { model := ⟨(), ⟨t⟩⟩, config := ⟨t⟩, tokenizer := (), processor := (), image_processor := () }

/-- A concrete kind table (the same shape the repository's test suite
mocks: one vlm type, one lm type, one embeddings entry). -/
def cexModels : Models :=
  { vlm := ["llava"], lm := ["phi"], embeddings := ["bert"] }

/-- A concrete loader whose sub-routines return distinguishable bundles
and whose config resolves every name to the `bert` model type. -/
def cexLoader : Loader Unit Unit :=
  { load_config := fun _ => .ok ⟨"bert"⟩
  , load_vlm_model := fun _ _ => .ok (unitBundle "vlmB")
  , load_embeddings_model := fun _ _ => .ok (unitBundle "embB")
  , load_lm_model := fun _ _ => .ok (unitBundle "lmB") }

/-- A concrete loader whose config resolution raises. -/
def failLoader : Loader Unit String :=
  { load_config := fun _ => .error "model not found"
  , load_vlm_model := fun _ _ => .error "unreachable"
  , load_embeddings_model := fun _ _ => .error "unreachable"
  , load_lm_model := fun _ _ => .error "unreachable" }

/-- A concrete loader that resolves each name to a config whose model
type is the name itself and echoes that type into the bundle. -/
def witLoader : Loader Unit Unit :=
  { load_config := fun model_name => .ok ⟨model_name⟩
  , load_vlm_model := fun _ config => .ok (unitBundle config.model_type)
  , load_embeddings_model := fun _ config => .ok (unitBundle config.model_type)
  , load_lm_model := fun _ config => .ok (unitBundle config.model_type) }

/-- Concrete orchestrator oracles over unit handles; the extractor
oracle echoes the generated output so responses are observable. -/
def witOracles : ChatOracles Unit Unit String :=
  { get_eom_token := fun _ => ["eom"]
  , apply_vlm_chat_template := fun _ _ cms => String.intercalate "|" (cms.map VlmMsg.content)
  , apply_lm_chat_template := fun _ cms _ => toString cms.length
  , get_tool_prompt := fun _ _ _ _ _ => ("TOOLPROMPT", false)
  , vlm_stream_generator := fun _ _ _ _ _ _ _ _ => []
  , vlm_generate := fun _ _ iu pr _ _ _ => pr ++ "/" ++ iu.getD ""
  , lm_stream_generator := fun _ _ _ _ _ _ _ => []
  , lm_generate := fun _ _ pr _ _ _ => pr
  , handle_function_calls := fun output _ => output }

/-- Claim C1 as written is false: the embeddings classification tests
membership of the remapped type with `".py"` appended, not of the type
itself.  With `MODELS.embeddings = ["bert"]` and remapped type `"bert"`
(a member of the embeddings list), the model is loaded by the
plain-language-model sub-routine, not the embeddings sub-routine. -/
theorem load_dispatch_cex :
    ("bert" ∈ cexModels.embeddings)
    ∧ (load_model cexLoader [] cexModels ⟨[]⟩ "m").2 = .ok (unitBundle "lmB")
    ∧ cexLoader.load_embeddings_model "m" ⟨"bert"⟩ = .ok (unitBundle "embB")
    ∧ ¬ (unitBundle "lmB" = unitBundle "embB") := by
  refine ⟨by decide, rfl, rfl, by decide⟩

theorem load_model_uncached_snd (L : Loader H ε) (rm : List (String × String)) (M : Models)
    (p : ModelProvider (Bundle H)) (n : String)
    (hmiss : p.models.lookup n = none) :
    (load_model L rm M p n).2 = freshLoad L rm M n := by
  unfold load_model
  rw [hmiss]
  cases hf : freshLoad L rm M n <;> simp [hf]

/-- Claim C1 (amended): for an uncached name whose config resolves with a
model_type, the loader remaps the type and dispatches: a remapped type in
the vision-language list is loaded by the VLM sub-routine; otherwise a
remapped type which, with ".py" appended, is in the embeddings list is
loaded by the embeddings sub-routine; every other type is loaded by the
plain-language-model sub-routine. -/
theorem load_dispatch_amended (L : Loader H ε) (rm : List (String × String)) (M : Models)
    (p : ModelProvider (Bundle H)) (n : String) (c : Config)
    (hmiss : p.models.lookup n = none)
    (hcfg : L.load_config n = .ok c) :
    (load_model L rm M p n).2 =
      (if remap rm c.model_type ∈ M.vlm then
        L.load_vlm_model n c
      else if (remap rm c.model_type ++ ".py") ∈ M.embeddings then
        L.load_embeddings_model n c
      else
        L.load_lm_model n c) := by
  rw [load_model_uncached_snd L rm M p n hmiss, freshLoad, hcfg]

/-- Witness for C1 (amended) at a concrete uncached name: the `bert`
config type dispatches to the plain-LM sub-routine under `cexModels`. -/
theorem load_dispatch_amended_wit :
    ((ModelProvider.mk [] : ModelProvider (Bundle Unit)).models.lookup "m" = none
      ∧ cexLoader.load_config "m" = .ok ⟨"bert"⟩)
    ∧ (load_model cexLoader [] cexModels ⟨[]⟩ "m").2 =
      (if remap [] (Config.mk "bert").model_type ∈ cexModels.vlm then
        cexLoader.load_vlm_model "m" ⟨"bert"⟩
      else if (remap [] (Config.mk "bert").model_type ++ ".py") ∈ cexModels.embeddings then
        cexLoader.load_embeddings_model "m" ⟨"bert"⟩
      else
        cexLoader.load_lm_model "m" ⟨"bert"⟩) :=
  ⟨⟨rfl, rfl⟩, load_dispatch_amended cexLoader [] cexModels ⟨[]⟩ "m" ⟨"bert"⟩ rfl rfl⟩

/-- Claim C2: if config resolution or the kind-specific load sub-routine
raises while handling an uncached name, the exception propagates (the
call's result is that error) and the registry afterwards is unchanged and
contains no entry for that name. -/
theorem load_failure_no_cache (L : Loader H ε) (rm : List (String × String)) (M : Models)
    (p : ModelProvider (Bundle H)) (n : String) (e : ε)
    (hmiss : p.models.lookup n = none)
    (herr : freshLoad L rm M n = .error e) :
    load_model L rm M p n = (p, .error e)
    ∧ (load_model L rm M p n).1.models.lookup n = none := by
  have h1 : load_model L rm M p n = (p, .error e) := by
    unfold load_model
    rw [hmiss, herr]
  exact ⟨h1, by rw [h1]; exact hmiss⟩

/-- Witness for C2: a loader whose config resolution fails leaves the
empty registry empty and surfaces the error. -/
theorem load_failure_no_cache_wit :
    ((ModelProvider.mk [] : ModelProvider (Bundle Unit)).models.lookup "bad" = none
      ∧ freshLoad failLoader [] cexModels "bad" = .error "model not found")
    ∧ load_model failLoader [] cexModels ⟨[]⟩ "bad" = (⟨[]⟩, .error "model not found")
    ∧ (load_model failLoader [] cexModels ⟨[]⟩ "bad").1.models.lookup "bad" = none :=
  ⟨⟨rfl, rfl⟩, load_failure_no_cache failLoader [] cexModels ⟨[]⟩ "bad" "model not found" rfl rfl⟩

/-- Claim C3: releasing a present name removes exactly that entry (the
name is gone, every other name's binding is untouched) and returns true;
a second release of the same name then returns false; releasing an absent
name returns false and leaves the state unchanged. -/
theorem remove_model_spec {β : Type} (p : ModelProvider β) (n k m : String) (b : β)
    (hnd : (p.models.map Prod.fst).Nodup)
    (hb : p.models.lookup n = some b)
    (hk : k ≠ n)
    (hm : p.models.lookup m = none) :
    (remove_model p n).2 = true
    ∧ ((remove_model p n).1).models.lookup n = none
    ∧ ((remove_model p n).1).models.lookup k = p.models.lookup k
    ∧ remove_model (remove_model p n).1 n = ((remove_model p n).1, false)
    ∧ remove_model p m = (p, false) := by
  have hfst : (remove_model p n).1 = ⟨p.models.eraseP fun kv => kv.1 == n⟩ := by
    simp [remove_model, hb]
  have h2 : ((remove_model p n).1).models.lookup n = none := by
    rw [hfst]
    exact lookup_eraseP_self p.models n hnd
  refine ⟨by simp [remove_model, hb], h2, ?_, ?_, by simp [remove_model, hm]⟩
  · rw [hfst]
    exact lookup_eraseP_ne p.models n k hk
  · conv_lhs => rw [remove_model]
    rw [h2]

/-- Witness for C3 on a two-entry registry: removing "X" succeeds, leaves
"Y" bound, a second removal fails, and removing the absent "Z" is a
no-op returning false. -/
theorem remove_model_spec_wit :
    (((ModelProvider.mk [("X", 1), ("Y", 2)]).models.map Prod.fst).Nodup
      ∧ (ModelProvider.mk [("X", (1 : Nat)), ("Y", 2)]).models.lookup "X" = some 1
      ∧ "Y" ≠ "X"
      ∧ (ModelProvider.mk [("X", (1 : Nat)), ("Y", 2)]).models.lookup "Z" = none)
    ∧ (remove_model (ModelProvider.mk [("X", (1 : Nat)), ("Y", 2)]) "X").2 = true
    ∧ ((remove_model (ModelProvider.mk [("X", (1 : Nat)), ("Y", 2)]) "X").1).models.lookup "X" = none
    ∧ ((remove_model (ModelProvider.mk [("X", (1 : Nat)), ("Y", 2)]) "X").1).models.lookup "Y"
        = (ModelProvider.mk [("X", (1 : Nat)), ("Y", 2)]).models.lookup "Y"
    ∧ remove_model (remove_model (ModelProvider.mk [("X", (1 : Nat)), ("Y", 2)]) "X").1 "X"
        = ((remove_model (ModelProvider.mk [("X", (1 : Nat)), ("Y", 2)]) "X").1, false)
    ∧ remove_model (ModelProvider.mk [("X", (1 : Nat)), ("Y", 2)]) "Z"
        = (ModelProvider.mk [("X", (1 : Nat)), ("Y", 2)], false) :=
  ⟨⟨by decide, rfl, by decide, rfl⟩,
    remove_model_spec (ModelProvider.mk [("X", 1), ("Y", 2)]) "X" "Y" "Z" 1
      (by decide) rfl (by decide) rfl⟩

/-- Claim C9: registry calls are atomic under the source's cooperative
scheduling (no await point inside `load_model`; `remove_model` holds the
lock), so a concurrent execution is an interleaving of atomic calls.  For
every interleaving from the empty registry the name list is
duplicate-free, and after any positive number of acquires of one name
whose fresh load succeeds, exactly one entry of that name exists. -/
theorem registry_concurrent_spec (L : Loader H ε) (rm : List (String × String)) (M : Models)
    (ops : List RegOp) (x : String) (b : Bundle H) (n : Nat)
    (hn : 1 ≤ n)
    (hb : freshLoad L rm M x = .ok b) :
    (get_available_models (runOps L rm M ⟨[]⟩ ops)).Nodup
    ∧ (get_available_models (runOps L rm M ⟨[]⟩ (List.replicate n (RegOp.acquire x)))).count x = 1 := by
  constructor
  · exact runOps_keys_nodup L rm M ⟨[]⟩ ops (by simp)
  · rw [runOps_acquire_replicate L rm M x b n hn hb]
    simp [get_available_models]

/-- Witness for C9: a mixed interleaving and three concurrent acquires of
"X" under a concrete loader. -/
theorem registry_concurrent_spec_wit :
    (1 ≤ 3 ∧ freshLoad witLoader [] cexModels "X" = .ok (unitBundle "X"))
    ∧ (get_available_models (runOps witLoader [] cexModels ⟨[]⟩
        [RegOp.acquire "A", RegOp.release "A", RegOp.acquire "B", RegOp.acquire "A"])).Nodup
    ∧ (get_available_models (runOps witLoader [] cexModels ⟨[]⟩
        (List.replicate 3 (RegOp.acquire "X")))).count "X" = 1 :=
  ⟨⟨by decide, rfl⟩,
    (registry_concurrent_spec witLoader [] cexModels
      [RegOp.acquire "A", RegOp.release "A", RegOp.acquire "B", RegOp.acquire "A"]
      "X" (unitBundle "X") 3 (by decide) rfl).1,
    (registry_concurrent_spec witLoader [] cexModels
      [RegOp.acquire "A", RegOp.release "A", RegOp.acquire "B", RegOp.acquire "A"]
      "X" (unitBundle "X") 3 (by decide) rfl).2⟩

/-- A request whose only message carries an `image_url` content part with
an empty url string. -/
def cexReqC4 : ChatCompletionRequest Unit :=
  { model := "llava"
  , messages := [⟨"user", MsgContent.parts [⟨PartType.image_url, none, some [("url", "")]⟩]⟩] }

/-- Claim C4 as written is false: a request on the VLM path containing an
`image_url` content part whose url is the empty string still fails with
HTTP 400, because the handler's presence test is Python truthiness
(`if not image_url`) on the extracted url. -/
theorem vlm_image_cex :
    (cexReqC4.messages.any msgHasImagePart = true)
    ∧ (chat_completion witLoader witOracles [] cexModels ⟨[]⟩ cexReqC4).2
        = ChatResult.httpError 400 "Image URL not provided for VLM model" := by
  exact ⟨rfl, rfl⟩

/-- Claim C4 (amended): on the VLM path, a request none of whose messages
contains an `image_url` part fails with HTTP 400 before generation; a
request whose scan extracts a non-empty url from the last `image_url`
part proceeds to generation (an `image_url` part carrying an empty url
string is treated as absent and also fails with 400, per the
counterexample). -/
theorem vlm_image_amended (L : Loader H ε) (O : ChatOracles H Tool Resp)
    (rm : List (String × String)) (M : Models)
    (p q p1 q1 : ModelProvider (Bundle H))
    (req req2 : ChatCompletionRequest Tool) (b b2 : Bundle H)
    (cm cm2 : List VlmMsg) (iu : Option String) (u : String)
    (hload : load_model L rm M p req.model = (p1, .ok b))
    (hvlm : remap rm b.config.model_type ∈ M.vlm)
    (hni : req.messages.any msgHasImagePart = false)
    (hscan : scanMessages req.messages none = .ok (cm, iu))
    (hload2 : load_model L rm M q req2.model = (q1, .ok b2))
    (hvlm2 : remap rm b2.config.model_type ∈ M.vlm)
    (hscan2 : scanMessages req2.messages none = .ok (cm2, some u))
    (hu : ¬ u = "") :
    (chat_completion L O rm M p req).2
      = ChatResult.httpError 400 "Image URL not provided for VLM model"
    ∧ isProceed (chat_completion L O rm M q req2).2 = true := by
  constructor
  · have hiu : iu = none := scanMessages_no_image req.messages none hni cm iu hscan
    subst hiu
    simp only [chat_completion, hload]
    rw [if_pos hvlm]
    simp only [hscan]
    have htriv : isFalsy none = true := rfl
    rw [if_pos (And.intro htriv hvlm)]
  · have hne : cm2 ≠ [] := scanMessages_some_ne_nil req2.messages cm2 u hscan2
    obtain ⟨pr, hpr⟩ := vlmPrompt_isSome O b2 cm2 hne
    have hfalsy : ¬ (isFalsy (some u) = true ∧ remap rm b2.config.model_type ∈ M.vlm) := by
      intro hcontra
      have hq : (u == "") = true := hcontra.1
      exact hu (by simpa using hq)
    simp only [chat_completion, hload2]
    rw [if_pos hvlm2]
    simp only [hscan2]
    rw [if_neg hfalsy, hpr]
    cases hst : req2.stream <;> simp [hst, isProceed]

/-- Claim C5: for a non-VLM request declaring tools, with a model not
matching the firefunction-v2 exclusion and a first message that is not a
system message, the message list used for generation is transformed
according to the synthesizer's flag — either the final message's content
is replaced by the tool prompt, or a synthesized system message is
inserted at position 0; if a system message is already first, the list is
left unchanged. -/
theorem tool_prompt_spec {Tool : Type}
    (gtp : String → List Tool → MsgContent → Option String → Option Bool → String × Bool)
    (req req2 : ChatCompletionRequest Tool)
    (m0 last m0' : ChatMessage) (rest rest' : List ChatMessage)
    (h1 : req.messages = m0 :: rest)
    (htools : toolsTruthy req.tools = true)
    (hex : strContains req.model "firefunction-v2" = false)
    (hrole : ¬ m0.role = "system")
    (hlast : req.messages.getLast? = some last)
    (h2 : req2.messages = m0' :: rest')
    (hrole2 : m0'.role = "system") :
    applyToolPrompt gtp req =
      some (if (gtp req.model (req.tools.getD []) last.content req.tool_choice req.parallel_tool_calls).2 then
        replaceLastContent req.messages
          (MsgContent.str (gtp req.model (req.tools.getD []) last.content req.tool_choice req.parallel_tool_calls).1)
      else
        ChatMessage.mk "system"
          (MsgContent.str (gtp req.model (req.tools.getD []) last.content req.tool_choice req.parallel_tool_calls).1)
          :: req.messages)
    ∧ applyToolPrompt gtp req2 = some req2.messages := by
  constructor
  · rw [applyToolPrompt, if_pos (And.intro htools hex)]
    have hlast1 : (m0 :: rest).getLast? = some last := by rw [← h1]; exact hlast
    simp only [h1, hlast1, if_neg hrole]
    rw [← h1]
    split <;> rfl
  · rw [applyToolPrompt]
    by_cases hcond : toolsTruthy req2.tools = true ∧ strContains req2.model "firefunction-v2" = false
    · rw [if_pos hcond]
      simp only [h2, if_pos hrole2]
    · rw [if_neg hcond]

/-- A non-VLM request declaring one tool, whose first message is a user
message. -/
def witReqC5 : ChatCompletionRequest Unit :=
  { model := "phi"
  , messages := [⟨"user", MsgContent.str "hi"⟩]
  , tools := some [()] }

/-- The same request but with an explicit system message first. -/
def witReqC5sys : ChatCompletionRequest Unit :=
  { model := "phi"
  , messages := [⟨"system", MsgContent.str "be nice"⟩, ⟨"user", MsgContent.str "hi"⟩]
  , tools := some [()] }

/-- Witness for C5: with a synthesizer returning `user_role = false`, the
synthesized system message is inserted at position 0; the request with an
explicit system message is left unchanged. -/
theorem tool_prompt_spec_wit :
    (toolsTruthy witReqC5.tools = true
      ∧ strContains witReqC5.model "firefunction-v2" = false
      ∧ ¬ (ChatMessage.mk "user" (MsgContent.str "hi")).role = "system"
      ∧ witReqC5.messages.getLast? = some ⟨"user", MsgContent.str "hi"⟩)
    ∧ applyToolPrompt (fun _ _ _ _ _ => ("TOOLPROMPT", false)) witReqC5 =
      some (if (("TOOLPROMPT", false) :
            String × Bool).2 then
        replaceLastContent witReqC5.messages (MsgContent.str ("TOOLPROMPT", false).1)
      else
        ChatMessage.mk "system" (MsgContent.str ("TOOLPROMPT", false).1) :: witReqC5.messages)
    ∧ applyToolPrompt (fun _ _ _ _ _ => ("TOOLPROMPT", false)) witReqC5sys =
      some witReqC5sys.messages :=
  ⟨⟨rfl, by decide, by decide, rfl⟩,
    (tool_prompt_spec (fun _ _ _ _ _ => ("TOOLPROMPT", false)) witReqC5 witReqC5sys
      ⟨"user", MsgContent.str "hi"⟩ ⟨"user", MsgContent.str "hi"⟩
      ⟨"system", MsgContent.str "be nice"⟩ [] [⟨"user", MsgContent.str "hi"⟩]
      rfl rfl (by decide) (by decide) rfl rfl rfl).1,
    (tool_prompt_spec (fun _ _ _ _ _ => ("TOOLPROMPT", false)) witReqC5 witReqC5sys
      ⟨"user", MsgContent.str "hi"⟩ ⟨"user", MsgContent.str "hi"⟩
      ⟨"system", MsgContent.str "be nice"⟩ [] [⟨"user", MsgContent.str "hi"⟩]
      rfl rfl (by decide) (by decide) rfl rfl rfl).2⟩

/-- A VLM-path request with no image part anywhere. -/
def witReqC4a : ChatCompletionRequest Unit :=
  { model := "llava", messages := [⟨"user", MsgContent.str "hi"⟩] }

/-- A VLM-path request with an image part carrying a non-empty url. -/
def witReqC4b : ChatCompletionRequest Unit :=
  { model := "llava"
  , messages := [⟨"user", MsgContent.parts
      [⟨PartType.image_url, none, some [("url", "u1")]⟩, ⟨PartType.text, some "hi", none⟩]⟩] }

/-- Witness for C4 (amended): the image-free request gets 400, the
request with a non-empty url proceeds. -/
theorem vlm_image_amended_wit :
    (witReqC4a.messages.any msgHasImagePart = false
      ∧ scanMessages witReqC4a.messages none = .ok ([⟨"user", "hi"⟩], none)
      ∧ scanMessages witReqC4b.messages none = .ok ([⟨"user", "hi"⟩], some "u1")
      ∧ ¬ "u1" = "")
    ∧ (chat_completion witLoader witOracles [] cexModels ⟨[]⟩ witReqC4a).2
        = ChatResult.httpError 400 "Image URL not provided for VLM model"
    ∧ isProceed (chat_completion witLoader witOracles [] cexModels ⟨[]⟩ witReqC4b).2 = true :=
  ⟨⟨rfl, rfl, rfl, by decide⟩,
    (vlm_image_amended witLoader witOracles [] cexModels ⟨[]⟩ ⟨[]⟩
      ⟨[("llava", unitBundle "llava")]⟩ ⟨[("llava", unitBundle "llava")]⟩
      witReqC4a witReqC4b (unitBundle "llava") (unitBundle "llava")
      [⟨"user", "hi"⟩] [⟨"user", "hi"⟩] none "u1"
      rfl (by decide) rfl rfl rfl (by decide) rfl (by decide)).1,
    (vlm_image_amended witLoader witOracles [] cexModels ⟨[]⟩ ⟨[]⟩
      ⟨[("llava", unitBundle "llava")]⟩ ⟨[("llava", unitBundle "llava")]⟩
      witReqC4a witReqC4b (unitBundle "llava") (unitBundle "llava")
      [⟨"user", "hi"⟩] [⟨"user", "hi"⟩] none "u1"
      rfl (by decide) rfl rfl rfl (by decide) rfl (by decide)).2⟩

/-- Claim C10: for every non-streaming chat-completion request, on both
the VLM and plain-LM paths, the completed output text is passed through
the tool-call extractor and its result is the response — with no
condition on `request.tools` (in particular also when it is `none`). -/
theorem nonstream_extractor_applied (L : Loader H ε) (O : ChatOracles H Tool Resp)
    (rm : List (String × String)) (M : Models)
    (p q p1 q1 : ModelProvider (Bundle H))
    (reqV reqL : ChatCompletionRequest Tool) (bV bL : Bundle H)
    (cm : List VlmMsg) (iu : Option String) (promptV : String) (msgs : List ChatMessage)
    (hsV : reqV.stream = false)
    (hloadV : load_model L rm M p reqV.model = (p1, .ok bV))
    (hvlmV : remap rm bV.config.model_type ∈ M.vlm)
    (hscan : scanMessages reqV.messages none = .ok (cm, iu))
    (hiu : isFalsy iu = false)
    (hp : vlmPrompt O bV cm = some promptV)
    (hsL : reqL.stream = false)
    (hloadL : load_model L rm M q reqL.model = (q1, .ok bL))
    (hlm : remap rm bL.config.model_type ∉ M.vlm)
    (htp : applyToolPrompt O.get_tool_prompt reqL = some msgs) :
    (chat_completion L O rm M p reqV).2
      = ChatResult.completed (O.handle_function_calls
          (O.vlm_generate bV.model bV.processor iu promptV bV.image_processor
            reqV.max_tokens reqV.temperature) reqV)
    ∧ (chat_completion L O rm M q reqL).2
      = ChatResult.completed (O.handle_function_calls
          (O.lm_generate bL.model bL.tokenizer
            (O.apply_lm_chat_template bL.tokenizer
              (msgs.map fun mm => LmMsg.mk mm.role mm.content)
              { reqL with messages := msgs })
            reqL.max_tokens reqL.temperature (O.get_eom_token reqL.model))
          { reqL with messages := msgs }) := by
  constructor
  · have hfalsy : ¬ (isFalsy iu = true ∧ remap rm bV.config.model_type ∈ M.vlm) := by
      intro hcontra
      rw [hiu] at hcontra
      exact absurd hcontra.1 (by simp)
    simp only [chat_completion, hloadV]
    rw [if_pos hvlmV]
    simp only [hscan]
    rw [if_neg hfalsy]
    simp only [hp]
    simp [hsV]
  · simp only [chat_completion, hloadL]
    rw [if_neg hlm]
    simp only [htp]
    simp [hsL]

/-- A non-streaming LM request with no tools declared. -/
def witReqC10 : ChatCompletionRequest Unit :=
  { model := "phi", messages := [⟨"user", MsgContent.str "hello"⟩] }

/-- Witness for C10: concrete non-streaming requests on both paths, the
LM one declaring no tools, both produce the extractor's output. -/
theorem nonstream_extractor_applied_wit :
    (witReqC4b.stream = false ∧ witReqC10.stream = false ∧ witReqC10.tools = none)
    ∧ (chat_completion witLoader witOracles [] cexModels ⟨[]⟩ witReqC4b).2
      = ChatResult.completed (witOracles.handle_function_calls
          (witOracles.vlm_generate (unitBundle "llava").model (unitBundle "llava").processor
            (some "u1") "hi" (unitBundle "llava").image_processor
            witReqC4b.max_tokens witReqC4b.temperature) witReqC4b)
    ∧ (chat_completion witLoader witOracles [] cexModels ⟨[]⟩ witReqC10).2
      = ChatResult.completed (witOracles.handle_function_calls
          (witOracles.lm_generate (unitBundle "phi").model (unitBundle "phi").tokenizer
            (witOracles.apply_lm_chat_template (unitBundle "phi").tokenizer
              (witReqC10.messages.map fun mm => LmMsg.mk mm.role mm.content)
              { witReqC10 with messages := witReqC10.messages })
            witReqC10.max_tokens witReqC10.temperature (witOracles.get_eom_token witReqC10.model))
          { witReqC10 with messages := witReqC10.messages }) :=
  ⟨⟨rfl, rfl, rfl⟩,
    (nonstream_extractor_applied witLoader witOracles [] cexModels ⟨[]⟩ ⟨[]⟩
      ⟨[("llava", unitBundle "llava")]⟩ ⟨[("phi", unitBundle "phi")]⟩
      witReqC4b witReqC10 (unitBundle "llava") (unitBundle "phi")
      [⟨"user", "hi"⟩] (some "u1") "hi" witReqC10.messages
      rfl rfl (by decide) rfl rfl rfl rfl rfl (by decide) rfl).1,
    (nonstream_extractor_applied witLoader witOracles [] cexModels ⟨[]⟩ ⟨[]⟩
      ⟨[("llava", unitBundle "llava")]⟩ ⟨[("phi", unitBundle "phi")]⟩
      witReqC4b witReqC10 (unitBundle "llava") (unitBundle "phi")
      [⟨"user", "hi"⟩] (some "u1") "hi" witReqC10.messages
      rfl rfl (by decide) rfl rfl rfl rfl rfl (by decide) rfl).2⟩

/-- Claim C6: for an embeddings request whose model loads and whose
tensors are non-degenerate, the response holds one embedding per batch
row, each being the model output at the first token position of that row,
and usage reports prompt_tokens equal to the encoded token count of the
input with total_tokens the same count. -/
theorem create_embedding_spec (L : Loader H ε) (E : EmbedOracles H α)
    (rm : List (String × String)) (M : Models)
    (p p1 : ModelProvider (Bundle H)) (req : EmbeddingsRequest) (b : Bundle H)
    (row0 : List Nat) (restIds : List (List Nat))
    (t0 : List (List (List α))) (rest0 : List (List (List (List α))))
    (embs : List (List α))
    (hload : load_model L rm M p req.model = (p1, .ok b))
    (henc : E.encode b.tokenizer req.input = row0 :: restIds)
    (hfwd : E.forward b.model.handle (row0 :: restIds) = t0 :: rest0)
    (hrows : t0.mapM List.head? = some embs) :
    (create_embedding L E rm M p req).2 = .ok
      { model := req.model
      , data := embs.map fun e => ⟨"embedding", e, 0⟩
      , usage := ⟨row0.length, row0.length⟩ } := by
  simp only [create_embedding, hload, henc, hfwd]
  simp only [List.head?_cons, hrows]

/-- Concrete embeddings oracles: one batch row of three tokens; the
forward pass returns one output tensor with two batch rows of two token
positions each. -/
def witEmbed : EmbedOracles Unit Int :=
  { encode := fun _ _ => [[1, 2, 3]]
  , forward := fun _ _ => [[[[10, 11], [90, 91]]]] }

/-- Witness for C6: the embedding is the first-token vector of the batch
row and usage counts the three encoded tokens twice. -/
theorem create_embedding_spec_wit :
    (load_model witLoader [] cexModels ⟨[]⟩ "phi"
        = (⟨[("phi", unitBundle "phi")]⟩, .ok (unitBundle "phi"))
      ∧ witEmbed.encode (unitBundle "phi").tokenizer "Hello" = [[1, 2, 3]]
      ∧ witEmbed.forward (unitBundle "phi").model.handle [[1, 2, 3]] = [[[[10, 11], [90, 91]]]]
      ∧ ([[[10, 11], [90, 91]]] : List (List (List Int))).mapM List.head? = some [[10, 11]])
    ∧ (create_embedding witLoader witEmbed [] cexModels ⟨[]⟩ ⟨"phi", "Hello", none⟩).2 = .ok
      { model := "phi"
      , data := [⟨"embedding", [10, 11], 0⟩]
      , usage := ⟨3, 3⟩ } :=
  ⟨⟨rfl, rfl, rfl, rfl⟩,
    create_embedding_spec witLoader witEmbed [] cexModels ⟨[]⟩
      ⟨[("phi", unitBundle "phi")]⟩ ⟨"phi", "Hello", none⟩ (unitBundle "phi")
      [1, 2, 3] [] [[[10, 11], [90, 91]]] [] [[10, 11]]
      rfl rfl rfl rfl⟩

/-- Claim C7: for a fragment sequence of length K the rendered stream is
exactly the K+2 chunks as data lines followed by the [DONE] sentinel; the
first chunk announces the role, every chunk before the terminal one has
finish_reason null, the terminal chunk carries a non-null finish_reason,
and all chunks share the single id and created value fixed at stream
start. -/
theorem stream_framing (id0 : String) (created : Nat) (model finish : String)
    (frags : List String) :
    renderStream id0 created model frags finish
      = (streamChunks id0 created model frags finish).map SSEFrame.data ++ [SSEFrame.done]
    ∧ (streamChunks id0 created model frags finish).length = frags.length + 2
    ∧ (streamChunks id0 created model frags finish).head? = some (roleChunk id0 created model)
    ∧ (∀ c ∈ (streamChunks id0 created model frags finish).dropLast,
        c.choices.map ChunkChoice.finish_reason = [none])
    ∧ (streamChunks id0 created model frags finish).getLast?
        = some (terminalChunk id0 created model finish)
    ∧ (terminalChunk id0 created model finish).choices.map ChunkChoice.finish_reason
        = [some finish]
    ∧ ∀ c ∈ streamChunks id0 created model frags finish, c.id = id0 ∧ c.created = created := by
  refine ⟨rfl, ?_, rfl, ?_, ?_, rfl, ?_⟩
  · simp [streamChunks]
  · intro c hc
    rw [streamChunks] at hc
    rw [show roleChunk id0 created model
          :: (frags.map (contentChunk id0 created model) ++ [terminalChunk id0 created model finish])
        = (roleChunk id0 created model :: frags.map (contentChunk id0 created model))
          ++ [terminalChunk id0 created model finish] by simp] at hc
    rw [List.dropLast_concat] at hc
    rcases List.mem_cons.mp hc with hc | hc
    · rw [hc]; rfl
    · obtain ⟨f, hf, hcf⟩ := List.mem_map.mp hc
      rw [← hcf]; rfl
  · rw [streamChunks]
    rw [show roleChunk id0 created model
          :: (frags.map (contentChunk id0 created model) ++ [terminalChunk id0 created model finish])
        = (roleChunk id0 created model :: frags.map (contentChunk id0 created model))
          ++ [terminalChunk id0 created model finish] by simp]
    exact List.getLast?_concat _
  · intro c hc
    rw [streamChunks] at hc
    rcases List.mem_cons.mp hc with hc | hc
    · rw [hc]; exact ⟨rfl, rfl⟩
    · rcases List.mem_append.mp hc with hc2 | hc2
      · obtain ⟨f, hf, hcf⟩ := List.mem_map.mp hc2
        rw [← hcf]; exact ⟨rfl, rfl⟩
      · rw [List.mem_singleton.mp hc2]; exact ⟨rfl, rfl⟩

/-- Claim C8: the extractor is a total function of the input text — for
every oracle behaviour it returns a cleaned-text/calls pair — and when
every convention's payload parse fails (malformed JSON inside a matched
block, or nothing matched at all) it degrades to the raw text with an
empty call list instead of failing. -/
theorem extractor_lenient (O : ExtractorOracle) (text : String)
    (hall : ∀ c, O.parsePayload c text = none) :
    handle_function_calls O text = (text, []) := by
  rw [handle_function_calls, conventionOrder]
  simp only [List.findSome?_cons, tryConvention, hall]
  cases O.trigger Convention.inlineJson text <;>
    cases O.trigger Convention.legacyTag text <;>
      cases O.trigger Convention.structuredTag text <;>
        cases O.trigger Convention.bracketedList text <;>
          simp [List.findSome?]

/-- Witness for C8: an oracle whose triggers all match but whose parses
all reject still returns the raw text with no calls. -/
theorem extractor_lenient_wit :
    (∀ c, (ExtractorOracle.mk (fun _ _ => true) (fun _ _ => none)).parsePayload c
        "functools[oops" = none)
    ∧ handle_function_calls (ExtractorOracle.mk (fun _ _ => true) (fun _ _ => none))
        "functools[oops" = ("functools[oops", []) :=
  ⟨fun _ => rfl,
    extractor_lenient (ExtractorOracle.mk (fun _ _ => true) (fun _ _ => none))
      "functools[oops" (fun _ => rfl)⟩
